import Mathlib

/-!
Verification of the dependency-resolution core of a Gantt-chart tool.

The embedding models `gantt_data.py` (and the constants of `config.py`):

* `Task` mirrors the Python dataclass; calendar dates are modelled as
  integers counting days, durations as integers (Python `int`).
* `resolve_dependencies` mirrors the bounded fixed-point loop: up to
  `len(tasks)` passes over the list in order, each pass rewriting the
  start/end dates of every task whose (stripped) dependency field names
  an existing task id and whose start differs from that parent's current
  end.  The Python dict `id_to_task` holds references to the mutated
  objects and maps a duplicated id to its last occurrence, so lookup is
  modelled as "last task in the current list with that id".
* `create_project` / `make_default_task` mirror default population;
  the wall-clock read `date.today()` becomes an explicit `today` argument.
* `df_to_tasks` mirrors the tabular conversion; DataFrame cells are a
  `Cell` sum type so that type errors of the dynamic code (`int()` of a
  non-numeric string, date arithmetic on a string) become `Except` errors.
-/

namespace Gantt

/-- Python `str.strip()` on the model level: drop whitespace from both
ends of the character list. -/
def pyStrip (s : String) : String :=
  ⟨((s.data.dropWhile Char.isWhitespace).reverse.dropWhile
      Char.isWhitespace).reverse⟩

/-- Task entity of `gantt_data.py`; dates are days (ℤ). -/
structure Task where
  task_id : String
  name : String
  duration : Int
  start_date : Int
  end_date : Int
  colour : String
  dependency : String
deriving DecidableEq, Repr

/-- `config.DEFAULT_DURATION_DAYS`. -/
def DEFAULT_DURATION_DAYS : Int := 10

/-- `config.DEFAULT_START_OFFSET_DAYS`. -/
def DEFAULT_START_OFFSET_DAYS : Int := 5

/-- `config.DEFAULT_COLOUR`. -/
def DEFAULT_COLOUR : String := "Dark Blue"

/-- Structural base-10 digit extraction (little-endian), fuelled so that
it evaluates by kernel reduction; agrees with `Nat.digits 10`. -/
def natDigitsAux : Nat → Nat → List Nat
  | 0, _ => []
  | fuel + 1, n => if n = 0 then [] else n % 10 :: natDigitsAux fuel (n / 10)

def natDigits (n : Nat) : List Nat := natDigitsAux n n

/-- Decimal digit characters of `n`, most significant first. -/
def natDigitChars (n : Nat) : List Char :=
  (natDigits n).reverse.map Nat.digitChar

/-- Python `str(n)` for a natural number. -/
def natRepr (n : Nat) : String :=
  if n = 0 then "0" else ⟨natDigitChars n⟩

/-- Python `f"{index:03d}"`: decimal, left-padded with zeros to width 3. -/
def formatIndex3 (n : Nat) : String :=
  ⟨List.replicate (3 - (natDigitChars n).length) '0' ++ natDigitChars n⟩

/-- `make_default_task(index)` with the wall-clock read `date.today()`
made an explicit `today` argument. -/
def make_default_task (today : Int) (index : Nat) : Task :=
  let start := today + DEFAULT_START_OFFSET_DAYS
  { task_id := "T-" ++ formatIndex3 index
    name := "Task " ++ natRepr index
    duration := DEFAULT_DURATION_DAYS
    start_date := start
    end_date := start + DEFAULT_DURATION_DAYS
    colour := DEFAULT_COLOUR
    dependency := "" }

/-- `create_project(task_count)`. -/
def create_project (today : Int) (task_count : Nat) : List Task :=
  (List.range task_count).map (fun i => make_default_task today (i + 1))

/-- The end-date rule of lines 59-61 of `gantt_data.py`:
`new_start if duration == 0 else new_start + timedelta(days=duration)`. -/
def updateEnd (ns dur : Int) : Int := if dur = 0 then ns else ns + dur

/-- `id_to_task[dep]`: the dict comprehension maps a (possibly
duplicated) id to its last occurrence, and holds live references, so we
look up the last matching task in the current list state. -/
def lookupLast (ts : List Task) (dep : String) : Option Task :=
  ts.reverse.find? (fun t => t.task_id == dep)

/-- Loop body of `resolve_dependencies` for the task at index `i`:
returns the updated list state and whether this task changed. -/
def stepTask (ts : List Task) (i : Nat) : List Task × Bool :=
  match ts[i]? with
  | none => (ts, false)
  | some t =>
    let dep := pyStrip t.dependency
    if dep = "" then (ts, false)
    else
      match lookupLast ts dep with
      | none => (ts, false)
      | some parent =>
        if parent.end_date = t.start_date then (ts, false)
        else
          (ts.set i { t with
              start_date := parent.end_date
              end_date := updateEnd parent.end_date t.duration }, true)

/-- One pass of the inner `for task in tasks` loop, starting at index `i`
with accumulated changed-flag `c`, fuelled by the number of remaining
indices. -/
def passAux : Nat → List Task → Nat → Bool → List Task × Bool
  | 0, ts, _, c => (ts, c)
  | fuel + 1, ts, i, c =>
    let p := stepTask ts i
    passAux fuel p.1 (i + 1) (c || p.2)

/-- One full pass over the list. -/
def onePass (ts : List Task) : List Task × Bool :=
  passAux ts.length ts 0 false

/-- The outer `for _ in range(len(tasks))` loop with its early
`if not changed: break` exit, fuelled by the remaining pass count. -/
def resolveLoop : Nat → List Task → List Task
  | 0, ts => ts
  | fuel + 1, ts =>
    let p := onePass ts
    if p.2 then resolveLoop fuel p.1 else p.1

/-- `resolve_dependencies(tasks)`. -/
def resolve_dependencies (ts : List Task) : List Task :=
  resolveLoop ts.length ts

/-- The derivation invariant of the spec:
`end_date == start_date` when `duration == 0`,
else `end_date == start_date + duration days`. -/
def endInv (t : Task) : Prop :=
  t.end_date = updateEnd t.start_date t.duration

instance (t : Task) : Decidable (endInv t) := by
  unfold endInv; infer_instance

/-- A pass over `ts` reports no change. -/
def Stable (ts : List Task) : Prop := (onePass ts).2 = false

instance (ts : List Task) : Decidable (Stable ts) := by
  unfold Stable; infer_instance

/-- Two tasks equal in every field except perhaps the raw text of the
dependency field, whose stripped forms agree. -/
def TrimEq (t u : Task) : Prop :=
  t.task_id = u.task_id ∧ t.name = u.name ∧ t.duration = u.duration ∧
  t.start_date = u.start_date ∧ t.end_date = u.end_date ∧
  t.colour = u.colour ∧ pyStrip t.dependency = pyStrip u.dependency

/-- The rewrite of lines 58-61: start moved to `ns`, end re-derived. -/
def shifted (t : Task) (ns : Int) : Task :=
  { t with start_date := ns, end_date := updateEnd ns t.duration }

/-- Numeric value of a decimal digit character. -/
def digitVal (c : Char) : Nat := c.toNat - 48

/-- Numeric value of the digit part of a `"T-###"` id: drop the two
leading characters and read the rest as a decimal numeral. -/
def idVal (s : String) : Nat :=
  (s.data.drop 2).foldl (fun a c => a * 10 + digitVal c) 0

/-! ### The tabular model (`df_to_tasks`) -/

/-- A DataFrame cell of the kinds the conversion can meet: an int, a
free string, a `datetime.date` (modelled as a day number), or a pandas
timestamp (has a `.date()` accessor). -/
inductive Cell where
  | cInt : Int → Cell
  | cStr : String → Cell
  | cDate : Int → Cell
  | cTimestamp : Int → Cell
deriving DecidableEq, Repr

/-- The built-in Python exceptions the dynamic conversion code can
raise.  Neither carries any row or field information. -/
inductive PyError where
  | valueError : PyError
  | typeError : PyError
deriving DecidableEq, Repr

/-- One row of the edited table: columns
`{ID, Task Name, Duration, Start Date, End Date, Colour, Dependency}`.
The text columns pass through `str(...)` which is the identity on the
strings the editor supplies, so they are modelled as strings. -/
structure Row where
  id : String
  task_name : String
  duration : Cell
  start : Cell
  end_cell : Cell
  colour : String
  dependency : String
deriving DecidableEq, Repr

/-- Digits-only numeral to its value. -/
def digitsToNat (l : List Char) : Option Nat :=
  if l = [] then none
  else if l.all Char.isDigit then
    some (l.foldl (fun a c => a * 10 + digitVal c) 0)
  else none

/-- Python `int(s)` on a string: strip whitespace, optional sign, then
a non-empty all-digit numeral; anything else raises `ValueError`. -/
def pyIntOfString (s : String) : Option Int :=
  match (pyStrip s).data with
  | '-' :: rest => (digitsToNat rest).map (fun n => -(n : Int))
  | '+' :: rest => (digitsToNat rest).map (fun n => (n : Int))
  | rest => (digitsToNat rest).map (fun n => (n : Int))

/-- Python `int(cell)`: ints pass through, numeric strings parse,
anything else raises. -/
def pyInt : Cell → Except PyError Int
  | .cInt n => .ok n
  | .cStr s =>
    match pyIntOfString s with
    | some n => .ok n
    | none => .error .valueError
  | .cDate _ => .error .typeError
  | .cTimestamp _ => .error .typeError

/-- `if hasattr(start, "date"): start = start.date()`: only the pandas
timestamp has that accessor. -/
def asStartCell : Cell → Cell
  | .cTimestamp d => .cDate d
  | c => c

/-- `start + timedelta(days=dur)`: defined on date-like cells, a
`TypeError` on ints and strings. -/
def cellPlusDays : Cell → Int → Except PyError Cell
  | .cDate d, k => .ok (.cDate (d + k))
  | .cTimestamp d, k => .ok (.cTimestamp (d + k))
  | .cInt _, _ => .error .typeError
  | .cStr _, _ => .error .typeError

/-- Task as produced by the tabular conversion; its dates stay `Cell`s
because the dynamic code can let a non-date start slip through. -/
structure DfTask where
  task_id : String
  name : String
  duration : Int
  start_date : Cell
  end_date : Cell
  colour : String
  dependency : String
deriving DecidableEq, Repr

/-- The loop body of `df_to_tasks` for one row, with the exception
control flow made explicit: `int(row["Duration"])` runs first, then the
end date is derived (`start` when the duration is `0`, otherwise date
arithmetic that raises on a non-date start). -/
def rowToTask (r : Row) : Except PyError DfTask :=
  match pyInt r.duration with
  | .error e => .error e
  | .ok dur =>
    match (if dur = 0 then Except.ok (asStartCell r.start)
           else cellPlusDays (asStartCell r.start) dur) with
    | .error e => .error e
    | .ok endc =>
      .ok { task_id := r.id
            name := r.task_name
            duration := dur
            start_date := asStartCell r.start
            end_date := endc
            colour := r.colour
            dependency := if r.dependency = "" then "" else r.dependency }

/-- `df_to_tasks(df)`: convert every row in order; the first exception
aborts the whole conversion and no task list is produced. -/
def df_to_tasks : List Row → Except PyError (List DfTask)
  | [] => .ok []
  | r :: rs =>
    match rowToTask r with
    | .error e => .error e
    | .ok t =>
      match df_to_tasks rs with
      | .error e => .error e
      | .ok ts => .ok (t :: ts)

/-- End-date invariant on converted tasks: equal cells for a milestone,
otherwise a genuine date shifted by the duration. -/
def dfEndInv (t : DfTask) : Prop :=
  if t.duration = 0 then t.end_date = t.start_date
  else ∃ s : Int, t.start_date = Cell.cDate s ∧
    t.end_date = Cell.cDate (s + t.duration)

/-! ### Concrete tasks and rows used in counterexamples and witnesses -/

/-- Predecessor with start Day 0, duration 5, end Day 5, no dependency. -/
def cxA : Task := ⟨"A", "A", 5, 0, 5, "Dark Blue", ""⟩

/-- Dependent task whose start already equals its parent's end but whose
stored end date is inconsistent. -/
def cxB : Task := ⟨"B", "B", 3, 5, 99, "Teal", "A"⟩

/-- Predecessor for witnesses, id `T-001`. -/
def wA : Task := ⟨"T-001", "alpha", 5, 0, 5, "Dark Blue", ""⟩

/-- Dependent task with a stale start date. -/
def wB : Task := ⟨"T-002", "beta", 3, 99, 102, "Teal", "T-001"⟩

/-- A task with no dependency whose stored end date violates the
derivation invariant. -/
def badInv : Task := ⟨"A", "x", 5, 0, 99, "Dark Blue", ""⟩

/-- A task that depends on itself. -/
def selfLoop : Task := ⟨"A", "x", 1, 0, 1, "Dark Blue", "A"⟩

/-- Chain head satisfying the end-date invariant, no dependency. -/
def c4A : Task := ⟨"A", "a", 5, 0, 5, "Dark Blue", ""⟩

/-- Chain middle, depends on `c4A`, stale dates, invariant holds. -/
def c4B : Task := ⟨"B", "b", 3, 100, 103, "Teal", "A"⟩

/-- Chain tail, depends on `c4B`, stale dates, invariant holds. -/
def c4C : Task := ⟨"C", "c", 2, 50, 52, "Slate Grey", "B"⟩

/-- A task whose dependency names no id of any collection it sits in. -/
def u5 : Task := ⟨"A", "x", 2, 7, 9, "Dark Blue", "GHOST"⟩

/-- Row with a well-formed duration `0` and an unparseable start date. -/
def badStartRow : Row :=
  ⟨"T-001", "x", Cell.cInt 0, Cell.cStr "soon", Cell.cDate 0, "Dark Blue", ""⟩

/-- Row with a non-numeric duration. -/
def badDurRow : Row :=
  ⟨"T-002", "y", Cell.cStr "ten", Cell.cDate 100, Cell.cDate 0, "Teal", ""⟩

/-- Predecessor used by the whitespace-leniency witness. -/
def base9 : Task := ⟨"T-001", "m", 5, 0, 5, "Dark Blue", ""⟩

/-- Dependent task with whitespace around its dependency id. -/
def p9 : Task := ⟨"T-002", "n", 3, 9, 12, "Teal", " T-001 "⟩

/-- The same task with the bare dependency id. -/
def q9 : Task := ⟨"T-002", "n", 3, 9, 12, "Teal", "T-001"⟩

/-- A task whose dependency is only whitespace. -/
def ws9 : Task := ⟨"T-003", "w", 1, 4, 5, "Charcoal", "   "⟩

/-- Self-dependent task with duration 2 and a consistent end date. -/
def sd10 : Task := ⟨"A", "x", 2, 0, 2, "Dark Blue", "A"⟩

/-! ### Frame machinery for the resolver -/

/-- The fields of a task that `resolve_dependencies` never writes. -/
def static (t : Task) : String × String × Int × String × String :=
  (t.task_id, t.name, t.duration, t.colour, t.dependency)

/-- The ids of a task list (the keys of `id_to_task`). -/
def idsOf (ts : List Task) : List String := ts.map Task.task_id

/-- A task the resolver treats as having no dependency: empty stripped
dependency field, or a stripped dependency naming no id of the list. -/
def Unres (t : Task) (ids : List String) : Prop :=
  pyStrip t.dependency = "" ∨ pyStrip t.dependency ∉ ids

instance (t : Task) (ids : List String) : Decidable (Unres t ids) := by
  unfold Unres; infer_instance

theorem lookupLast_eq_none_iff {ts : List Task} {dep : String} :
    lookupLast ts dep = none ↔ ∀ u ∈ ts, u.task_id ≠ dep := by
  simp [lookupLast, List.find?_eq_none]

theorem stepTask_length (ts : List Task) (i : Nat) :
    (stepTask ts i).1.length = ts.length := by
  unfold stepTask
  cases h : ts[i]? with
  | none => rfl
  | some t =>
    dsimp only
    split
    · rfl
    · cases hl : lookupLast ts (pyStrip t.dependency) with
      | none => rfl
      | some parent =>
        dsimp only
        split
        · rfl
        · simp

theorem stepTask_static (ts : List Task) (i j : Nat) :
    ((stepTask ts i).1[j]?).map static = (ts[j]?).map static := by
  unfold stepTask
  cases h : ts[i]? with
  | none => rfl
  | some t =>
    dsimp only
    split
    · rfl
    · cases hl : lookupLast ts (pyStrip t.dependency) with
      | none => rfl
      | some parent =>
        dsimp only
        split
        · rfl
        · by_cases hij : i = j
          · subst hij
            have hi : i < ts.length := by
              by_contra hge
              simp [List.getElem?_eq_none (Nat.le_of_not_lt hge)] at h
            simp [List.getElem?_set_self hi, h, static]
          · simp [List.getElem?_set_ne hij]

theorem staticEq_task_id {o p : Option Task}
    (h : o.map static = p.map static) :
    o.map Task.task_id = p.map Task.task_id := by
  cases o <;> cases p <;> simp_all [static, Prod.ext_iff]

theorem idsOf_congr {ts us : List Task}
    (h : ∀ j : Nat, (ts[j]?).map static = (us[j]?).map static) :
    idsOf ts = idsOf us := by
  apply List.ext_getElem?
  intro j
  simp only [idsOf, List.getElem?_map]
  exact staticEq_task_id (h j)

theorem stepTask_ids (ts : List Task) (i : Nat) :
    idsOf (stepTask ts i).1 = idsOf ts :=
  idsOf_congr (stepTask_static ts i)

theorem stepTask_untouched {ts : List Task} {j : Nat} {t : Task}
    (ht : ts[j]? = some t) (hu : Unres t (idsOf ts)) (i : Nat) :
    (stepTask ts i).1[j]? = some t := by
  by_cases hij : i = j
  · subst hij
    unfold stepTask
    rw [ht]
    dsimp only
    split
    · exact ht
    · have hl : lookupLast ts (pyStrip t.dependency) = none := by
        rw [lookupLast_eq_none_iff]
        intro u hu2 he
        rcases hu with h0 | h0
        · exact absurd h0 (by assumption)
        · exact h0 (by simpa [idsOf, List.mem_map] using ⟨u, hu2, he⟩)
      rw [hl]
      exact ht
  · unfold stepTask
    cases h : ts[i]? with
    | none => exact ht
    | some s =>
      dsimp only
      split
      · exact ht
      · cases hl : lookupLast ts (pyStrip s.dependency) with
        | none => exact ht
        | some parent =>
          dsimp only
          split
          · exact ht
          · rw [List.getElem?_set_ne hij]
            exact ht

theorem passAux_length :
    ∀ (fuel : Nat) (ts : List Task) (i : Nat) (c : Bool),
      (passAux fuel ts i c).1.length = ts.length := by
  intro fuel
  induction fuel with
  | zero => intro ts i c; rfl
  | succ k ih =>
    intro ts i c
    simp only [passAux]
    rw [ih]
    exact stepTask_length ts i

theorem passAux_static :
    ∀ (fuel : Nat) (ts : List Task) (i : Nat) (c : Bool) (j : Nat),
      ((passAux fuel ts i c).1[j]?).map static = (ts[j]?).map static := by
  intro fuel
  induction fuel with
  | zero => intro ts i c j; rfl
  | succ k ih =>
    intro ts i c j
    simp only [passAux]
    rw [ih]
    exact stepTask_static ts i j

theorem passAux_untouched :
    ∀ (fuel : Nat) (ts : List Task) (i : Nat) (c : Bool) {j : Nat} {t : Task},
      ts[j]? = some t → Unres t (idsOf ts) →
      (passAux fuel ts i c).1[j]? = some t := by
  intro fuel
  induction fuel with
  | zero => intro ts i c j t ht _; exact ht
  | succ k ih =>
    intro ts i c j t ht hu
    simp only [passAux]
    exact ih _ _ _ (stepTask_untouched ht hu i)
      (by rw [stepTask_ids]; exact hu)

theorem resolveLoop_length :
    ∀ (fuel : Nat) (ts : List Task),
      (resolveLoop fuel ts).length = ts.length := by
  intro fuel
  induction fuel with
  | zero => intro ts; rfl
  | succ k ih =>
    intro ts
    simp only [resolveLoop]
    split
    · rw [ih]; exact passAux_length _ _ _ _
    · exact passAux_length _ _ _ _

theorem resolveLoop_static :
    ∀ (fuel : Nat) (ts : List Task) (j : Nat),
      ((resolveLoop fuel ts)[j]?).map static = (ts[j]?).map static := by
  intro fuel
  induction fuel with
  | zero => intro ts j; rfl
  | succ k ih =>
    intro ts j
    simp only [resolveLoop]
    split
    · rw [ih]; exact passAux_static _ _ _ _ _
    · exact passAux_static _ _ _ _ _

theorem resolveLoop_untouched :
    ∀ (fuel : Nat) (ts : List Task) {j : Nat} {t : Task},
      ts[j]? = some t → Unres t (idsOf ts) →
      (resolveLoop fuel ts)[j]? = some t := by
  intro fuel
  induction fuel with
  | zero => intro ts j t ht _; exact ht
  | succ k ih =>
    intro ts j t ht hu
    have hids : idsOf (onePass ts).1 = idsOf ts :=
      idsOf_congr (fun n => by
        simpa only [onePass] using passAux_static ts.length ts 0 false n)
    have hstep : (onePass ts).1[j]? = some t :=
      passAux_untouched ts.length ts 0 false ht hu
    simp only [resolveLoop]
    split
    · exact ih _ hstep (by rw [hids]; exact hu)
    · exact hstep

/-! ### End-date invariant -/

theorem stepTask_inv {ts : List Task} (h : ∀ u ∈ ts, endInv u) (i : Nat) :
    ∀ u ∈ (stepTask ts i).1, endInv u := by
  unfold stepTask
  cases hi : ts[i]? with
  | none => exact h
  | some t =>
    dsimp only
    split
    · exact h
    · cases hl : lookupLast ts (pyStrip t.dependency) with
      | none => exact h
      | some parent =>
        dsimp only
        split
        · exact h
        · intro u hu
          rcases List.mem_or_eq_of_mem_set hu with hmem | hset
          · exact h u hmem
          · subst hset
            simp [endInv]

theorem passAux_inv :
    ∀ (fuel : Nat) {ts : List Task} (i : Nat) (c : Bool),
      (∀ u ∈ ts, endInv u) → ∀ u ∈ (passAux fuel ts i c).1, endInv u := by
  intro fuel
  induction fuel with
  | zero => intro ts i c h; exact h
  | succ k ih =>
    intro ts i c h
    simp only [passAux]
    exact ih _ _ (stepTask_inv h i)

theorem resolveLoop_inv :
    ∀ (fuel : Nat) {ts : List Task},
      (∀ u ∈ ts, endInv u) → ∀ u ∈ resolveLoop fuel ts, endInv u := by
  intro fuel
  induction fuel with
  | zero => intro ts h; exact h
  | succ k ih =>
    intro ts h
    simp only [resolveLoop]
    split
    · exact ih (by simpa only [onePass] using passAux_inv ts.length 0 false h)
    · simpa only [onePass] using passAux_inv ts.length 0 false h

theorem create_project_inv (today : Int) (n : Nat) :
    ∀ u ∈ create_project today n, endInv u := by
  intro u hu
  simp only [create_project, List.mem_map] at hu
  obtain ⟨i, _, rfl⟩ := hu
  simp [make_default_task, endInv, updateEnd, DEFAULT_DURATION_DAYS]

/-! ### Stability and the early exit -/

theorem stepTask_of_flag_false {ts : List Task} {i : Nat}
    (h : (stepTask ts i).2 = false) : (stepTask ts i).1 = ts := by
  unfold stepTask at h ⊢
  cases hi : ts[i]? with
  | none => rfl
  | some t =>
    rw [hi] at h
    dsimp only at h ⊢
    split
    · rfl
    · rename_i hdep
      rw [if_neg hdep] at h
      cases hl : lookupLast ts (pyStrip t.dependency) with
      | none => rfl
      | some parent =>
        rw [hl] at h
        dsimp only at h ⊢
        split
        · rfl
        · rename_i hne
          rw [if_neg hne] at h
          simp at h

theorem passAux_of_flag_false :
    ∀ (fuel : Nat) {ts : List Task} {i : Nat} {c : Bool},
      (passAux fuel ts i c).2 = false →
      (passAux fuel ts i c).1 = ts ∧ c = false := by
  intro fuel
  induction fuel with
  | zero => intro ts i c h; exact ⟨rfl, h⟩
  | succ k ih =>
    intro ts i c h
    simp only [passAux] at h ⊢
    obtain ⟨h1, h2⟩ := ih h
    rcases Bool.or_eq_false_iff.mp h2 with ⟨hc, hstep⟩
    rw [h1, stepTask_of_flag_false hstep, hc]
    exact ⟨rfl, rfl⟩

theorem resolveLoop_of_stable {ts : List Task} (h : Stable ts) :
    ∀ fuel, resolveLoop fuel ts = ts := by
  intro fuel
  cases fuel with
  | zero => rfl
  | succ k =>
    simp only [resolveLoop]
    rw [show (onePass ts).2 = false from h]
    simp only [Bool.false_eq_true, if_false]
    exact (passAux_of_flag_false ts.length (by simpa only [onePass] using h)).1

/-! ### Dependency fields that agree after stripping -/

theorem getElem?_forall₂ {R : Task → Task → Prop} :
    ∀ {l₁ l₂ : List Task}, List.Forall₂ R l₁ l₂ →
      ∀ i : Nat, Option.Rel R l₁[i]? l₂[i]? := by
  intro l₁ l₂ h
  induction h with
  | nil => intro i; simp; exact Option.Rel.none
  | cons hab _ ih =>
    intro i
    cases i with
    | zero => simpa using Option.Rel.some hab
    | succ j => simpa using ih j

theorem set_forall₂ {R : Task → Task → Prop} :
    ∀ {l₁ l₂ : List Task}, List.Forall₂ R l₁ l₂ →
      ∀ {a b : Task}, R a b → ∀ i : Nat,
        List.Forall₂ R (l₁.set i a) (l₂.set i b) := by
  intro l₁ l₂ h
  induction h with
  | nil => intro a b _ i; simp
  | cons hxy htl ih =>
    intro a b hab i
    cases i with
    | zero => simpa using List.Forall₂.cons hab htl
    | succ j => simpa using List.Forall₂.cons hxy (ih hab j)

theorem find?_forall₂ {R : Task → Task → Prop} {p q : Task → Bool}
    (hpq : ∀ a b, R a b → p a = q b) :
    ∀ {l₁ l₂ : List Task}, List.Forall₂ R l₁ l₂ →
      Option.Rel R (l₁.find? p) (l₂.find? q) := by
  intro l₁ l₂ h
  induction h with
  | nil => exact Option.Rel.none
  | cons hab _ ih =>
    rename_i a b l₁ l₂ _
    rw [List.find?_cons, List.find?_cons]
    cases hpa : p a with
    | true => rw [← hpq a b hab, hpa]; exact Option.Rel.some hab
    | false => rw [← hpq a b hab, hpa]; exact ih

theorem lookupLast_trimEq {ts us : List Task}
    (h : List.Forall₂ TrimEq ts us) (dep : String) :
    Option.Rel TrimEq (lookupLast ts dep) (lookupLast us dep) := by
  unfold lookupLast
  apply find?_forall₂
  · intro a b hab
    rw [show a.task_id = b.task_id from hab.1]
  · exact List.forall₂_reverse_iff.mpr h

theorem stepTask_trimEq {ts us : List Task}
    (h : List.Forall₂ TrimEq ts us) (i : Nat) :
    List.Forall₂ TrimEq (stepTask ts i).1 (stepTask us i).1 ∧
      (stepTask ts i).2 = (stepTask us i).2 := by
  have hrel := getElem?_forall₂ h i
  unfold stepTask
  cases hts : ts[i]? with
  | none =>
    cases hus : us[i]? with
    | none => exact ⟨h, rfl⟩
    | some u => rw [hts, hus] at hrel; cases hrel
  | some t =>
    cases hus : us[i]? with
    | none => rw [hts, hus] at hrel; cases hrel
    | some u =>
      rw [hts, hus] at hrel
      cases hrel with
      | some htu =>
        obtain ⟨hid, hname, hdur, hstart, hend, hcol, hdep⟩ := htu
        dsimp only
        rw [hdep]
        split
        · exact ⟨h, rfl⟩
        · have hlook := lookupLast_trimEq h (pyStrip u.dependency)
          cases hp : lookupLast ts (pyStrip u.dependency) with
          | none =>
            cases hq : lookupLast us (pyStrip u.dependency) with
            | none => exact ⟨h, rfl⟩
            | some q => rw [hp, hq] at hlook; cases hlook
          | some p =>
            cases hq : lookupLast us (pyStrip u.dependency) with
            | none => rw [hp, hq] at hlook; cases hlook
            | some q =>
              rw [hp, hq] at hlook
              cases hlook with
              | some hpq =>
                dsimp only
                rw [show p.end_date = q.end_date from hpq.2.2.2.2.1, hstart]
                split
                · exact ⟨h, rfl⟩
                · refine ⟨set_forall₂ h ?_ i, rfl⟩
                  exact ⟨hid, hname, hdur, by simp, by simp [hdur], hcol, hdep⟩

theorem passAux_trimEq :
    ∀ (fuel : Nat) {ts us : List Task}, List.Forall₂ TrimEq ts us →
      ∀ (i : Nat) (c : Bool),
        List.Forall₂ TrimEq (passAux fuel ts i c).1 (passAux fuel us i c).1 ∧
          (passAux fuel ts i c).2 = (passAux fuel us i c).2 := by
  intro fuel
  induction fuel with
  | zero => intro ts us h i c; exact ⟨h, rfl⟩
  | succ k ih =>
    intro ts us h i c
    simp only [passAux]
    obtain ⟨h1, h2⟩ := stepTask_trimEq h i
    rw [h2]
    exact ih h1 (i + 1) _

theorem resolveLoop_trimEq :
    ∀ (fuel : Nat) {ts us : List Task}, List.Forall₂ TrimEq ts us →
      List.Forall₂ TrimEq (resolveLoop fuel ts) (resolveLoop fuel us) := by
  intro fuel
  induction fuel with
  | zero => intro ts us h; exact h
  | succ k ih =>
    intro ts us h
    simp only [resolveLoop, onePass]
    rw [List.Forall₂.length_eq h]
    obtain ⟨h1, h2⟩ := passAux_trimEq us.length h 0 false
    rw [h2]
    split
    · exact ih h1
    · exact h1

/-! ### Decimal formatting of task ids -/

theorem natDigitsAux_eq_digits :
    ∀ (fuel n : Nat), n ≤ fuel → natDigitsAux fuel n = Nat.digits 10 n := by
  intro fuel
  induction fuel with
  | zero =>
    intro n hn
    interval_cases n
    simp [natDigitsAux]
  | succ k ih =>
    intro n hn
    by_cases h0 : n = 0
    · subst h0; simp [natDigitsAux]
    · rw [natDigitsAux, if_neg h0,
        Nat.digits_def' (by norm_num) (Nat.pos_of_ne_zero h0),
        ih (n / 10) ?_]
      have := Nat.div_lt_self (Nat.pos_of_ne_zero h0) (by norm_num : 1 < 10)
      omega

theorem natDigits_eq (n : Nat) : natDigits n = Nat.digits 10 n :=
  natDigitsAux_eq_digits n n le_rfl

theorem digitVal_digitChar {d : Nat} (hd : d < 10) :
    digitVal (Nat.digitChar d) = d := by
  interval_cases d <;> decide

theorem foldl_digit_replicate :
    ∀ k a, a = 0 →
      (List.replicate k '0').foldl (fun a c => a * 10 + digitVal c) a = 0 := by
  intro k
  induction k with
  | zero => intro a ha; simpa using ha
  | succ m ih =>
    intro a ha
    rw [List.replicate_succ, List.foldl_cons]
    exact ih _ (by subst ha; decide)

theorem foldr_eq_ofDigits :
    ∀ l : List Nat, l.foldr (fun d a => a * 10 + d) 0 = Nat.ofDigits 10 l := by
  intro l
  induction l with
  | nil => simp [Nat.ofDigits]
  | cons d l ih =>
    rw [List.foldr_cons, ih, Nat.ofDigits_cons]
    omega

theorem idVal_taskId (n : Nat) : idVal ("T-" ++ formatIndex3 n) = n := by
  have hdata : ("T-" ++ formatIndex3 n).data =
      'T' :: '-' :: (List.replicate (3 - (natDigitChars n).length) '0' ++
        natDigitChars n) := by
    rw [String.data_append]
    rfl
  rw [idVal, hdata]
  rw [show ('T' :: '-' :: (List.replicate (3 - (natDigitChars n).length) '0' ++
        natDigitChars n)).drop 2 =
      List.replicate (3 - (natDigitChars n).length) '0' ++ natDigitChars n
    from rfl]
  rw [List.foldl_append]
  rw [foldl_digit_replicate _ _ rfl]
  rw [natDigitChars, List.foldl_map, List.foldl_ext
    (fun a d => a * 10 + digitVal (Nat.digitChar d)) (fun a d => a * 10 + d) 0 ?_]
  · rw [List.foldl_reverse, foldr_eq_ofDigits, natDigits_eq,
      Nat.ofDigits_digits]
  · intro a d hd
    dsimp only
    rw [digitVal_digitChar]
    rw [List.mem_reverse, natDigits_eq] at hd
    exact Nat.digits_lt_base (by norm_num) hd

theorem taskId_injective :
    Function.Injective (fun n : Nat => "T-" ++ formatIndex3 n) := by
  intro m n h
  have := congrArg idVal h
  simpa [idVal_taskId] using this

/-! ### Tabular conversion (`df_to_tasks`) -/

theorem rowToTask_inv {r : Row} {t : DfTask} (h : rowToTask r = .ok t) :
    dfEndInv t := by
  unfold rowToTask at h
  cases hdur : pyInt r.duration with
  | error e => rw [hdur] at h; cases h
  | ok dur =>
    rw [hdur] at h
    dsimp only at h
    by_cases h0 : dur = 0
    · subst h0
      rw [if_pos rfl] at h
      cases h
      simp [dfEndInv]
    · rw [if_neg h0] at h
      cases hadd : cellPlusDays (asStartCell r.start) dur with
      | error e => rw [hadd] at h; cases h
      | ok endc =>
        rw [hadd] at h
        cases h
        cases hs : asStartCell r.start with
        | cDate d =>
          rw [hs] at hadd
          cases hadd
          simp only [dfEndInv, if_neg h0]
          exact ⟨d, rfl, rfl⟩
        | cInt k => rw [hs] at hadd; cases hadd
        | cStr s => rw [hs] at hadd; cases hadd
        | cTimestamp d =>
          exfalso
          unfold asStartCell at hs
          revert hs
          cases r.start <;> simp

theorem df_to_tasks_inv :
    ∀ {rows : List Row} {ts : List DfTask},
      df_to_tasks rows = .ok ts → ∀ t ∈ ts, dfEndInv t := by
  intro rows
  induction rows with
  | nil =>
    intro ts h t ht
    cases h
    cases ht
  | cons r rs ih =>
    intro ts h t ht
    unfold df_to_tasks at h
    cases h1 : rowToTask r with
    | error e => rw [h1] at h; cases h
    | ok t0 =>
      rw [h1] at h
      dsimp only at h
      cases h2 : df_to_tasks rs with
      | error e => rw [h2] at h; cases h
      | ok ts0 =>
        rw [h2] at h
        cases h
        rcases List.mem_cons.mp ht with rfl | hmem
        · exact rowToTask_inv h1
        · exact ih h2 t hmem

theorem df_to_tasks_row_error {r : Row} {e : PyError}
    (h : rowToTask r = .error e) :
    ∀ pre post, ∃ e2, df_to_tasks (pre ++ r :: post) = .error e2 := by
  intro pre
  induction pre with
  | nil =>
    intro post
    refine ⟨e, ?_⟩
    simp only [List.nil_append, df_to_tasks, h]
  | cons q qs ih =>
    intro post
    rw [List.cons_append]
    unfold df_to_tasks
    cases h1 : rowToTask q with
    | error e1 => exact ⟨e1, rfl⟩
    | ok t0 =>
      obtain ⟨e2, h2⟩ := ih post
      rw [h2]
      exact ⟨e2, rfl⟩

theorem rowToTask_ignores_end_cell (r : Row) (c : Cell) :
    rowToTask { r with end_cell := c } = rowToTask r := rfl

theorem df_to_tasks_ignores_end_cell :
    ∀ (rows : List Row) (f : Row → Cell),
      df_to_tasks (rows.map (fun r => { r with end_cell := f r })) =
        df_to_tasks rows := by
  intro rows f
  induction rows with
  | nil => rfl
  | cons r rs ih =>
    simp only [List.map_cons, df_to_tasks, rowToTask_ignores_end_cell, ih]

/-! ### Symbolic runs on small lists -/

theorem updateEnd_inj {a b d : Int} (h : updateEnd a d = updateEnd b d) :
    a = b := by
  unfold updateEnd at h
  split at h <;> omega

theorem shifted_task_id (t : Task) (ns : Int) :
    (shifted t ns).task_id = t.task_id := rfl

theorem shifted_dependency (t : Task) (ns : Int) :
    (shifted t ns).dependency = t.dependency := rfl

theorem shifted_start_date (t : Task) (ns : Int) :
    (shifted t ns).start_date = ns := rfl

theorem shifted_end_date (t : Task) (ns : Int) :
    (shifted t ns).end_date = updateEnd ns t.duration := rfl

theorem shifted_duration (t : Task) (ns : Int) :
    (shifted t ns).duration = t.duration := rfl

theorem resolve_pair (A B : Task)
    (hA : pyStrip A.dependency = "")
    (hB : pyStrip B.dependency = A.task_id)
    (hid : A.task_id ≠ "")
    (hne : B.task_id ≠ A.task_id) :
    resolve_dependencies [A, B] =
      if A.end_date = B.start_date then [A, B]
      else [A, shifted B A.end_date] := by
  have hBA : (B.task_id == A.task_id) = false := by simp [hne]
  have l0 : lookupLast [A, B] A.task_id = some A := by
    simp [lookupLast, List.find?, hBA]
  have s0 : stepTask [A, B] 0 = ([A, B], false) := by
    simp [stepTask, hA]
  by_cases hEq : A.end_date = B.start_date
  · have s1 : stepTask [A, B] 1 = ([A, B], false) := by
      simp [stepTask, hB, hid, l0, hEq]
    simp [resolve_dependencies, resolveLoop, onePass, passAux, s0, s1, hEq]
  · have s1 : stepTask [A, B] 1 = ([A, shifted B A.end_date], true) := by
      simp [stepTask, shifted, hB, hid, l0, hEq, List.set]
    have l0u : lookupLast [A, shifted B A.end_date] A.task_id = some A := by
      simp [lookupLast, List.find?, shifted_task_id, hBA]
    have s0u : stepTask [A, shifted B A.end_date] 0 = ([A, shifted B A.end_date], false) := by
      simp [stepTask, hA]
    have s1u : stepTask [A, shifted B A.end_date] 1 = ([A, shifted B A.end_date], false) := by
      simp [stepTask, hB, hid, l0u, shifted_dependency, shifted_start_date]
    simp [resolve_dependencies, resolveLoop, onePass, passAux,
      s0, s1, s0u, s1u, hEq]

theorem selfdep_shift (A : Task)
    (hdep : pyStrip A.dependency = A.task_id)
    (hid : A.task_id ≠ "")
    (hne : A.end_date ≠ A.start_date) :
    resolve_dependencies [A] = [shifted A A.end_date] := by
  have l0 : lookupLast [A] A.task_id = some A := by
    simp [lookupLast, List.find?]
  have s0 : stepTask [A] 0 = ([shifted A A.end_date], true) := by
    simp [stepTask, shifted, hdep, hid, l0, hne, List.set]
  simp [resolve_dependencies, resolveLoop, onePass, passAux, s0]

theorem task_eq_of {t u : Task}
    (h1 : t.task_id = u.task_id) (h2 : t.name = u.name)
    (h3 : t.duration = u.duration) (h4 : t.start_date = u.start_date)
    (h5 : t.end_date = u.end_date) (h6 : t.colour = u.colour)
    (h7 : t.dependency = u.dependency) : t = u := by
  cases t
  cases u
  simp_all

theorem shifted_shifted (t : Task) (x y : Int) :
    shifted (shifted t x) y = shifted t y := rfl

theorem resolve_chain_fwd (A B C : Task)
    (hA : pyStrip A.dependency = "")
    (hB : pyStrip B.dependency = A.task_id)
    (hC : pyStrip C.dependency = B.task_id)
    (hidA : A.task_id ≠ "") (hidB : B.task_id ≠ "")
    (hBA : B.task_id ≠ A.task_id) (hCA : C.task_id ≠ A.task_id)
    (hCB : C.task_id ≠ B.task_id)
    (hinvB : endInv B) (hinvC : endInv C) :
    resolve_dependencies [A, B, C] =
        [A, shifted B A.end_date,
          shifted C (updateEnd A.end_date B.duration)] ∧
      (onePass [A, B, C]).1 =
        [A, shifted B A.end_date,
          shifted C (updateEnd A.end_date B.duration)] := by
  rw [endInv] at hinvB hinvC
  have hBAf : (B.task_id == A.task_id) = false := by simp [hBA]
  have hCAf : (C.task_id == A.task_id) = false := by simp [hCA]
  have hCBf : (C.task_id == B.task_id) = false := by simp [hCB]
  have lkA : lookupLast [A, B, C] A.task_id = some A := by
    simp [lookupLast, List.find?, hBAf, hCAf]
  have lkB : lookupLast [A, B, C] B.task_id = some B := by
    simp [lookupLast, List.find?, hCBf]
  have s0 : stepTask [A, B, C] 0 = ([A, B, C], false) := by
    simp [stepTask, hA]
  by_cases c1 : A.end_date = B.start_date
  · have hBfix : shifted B A.end_date = B :=
      task_eq_of rfl rfl rfl c1 (by rw [shifted_end_date, hinvB, c1]) rfl rfl
    have s1 : stepTask [A, B, C] 1 = ([A, B, C], false) := by
      simp [stepTask, hB, hidA, lkA, c1]
    by_cases c2 : B.end_date = C.start_date
    · have hCfix : shifted C (updateEnd A.end_date B.duration) = C :=
        task_eq_of rfl rfl rfl (by rw [shifted_start_date, c1, ← hinvB, c2])
          (by rw [shifted_end_date, c1, ← hinvB, c2, hinvC])
          rfl rfl
      have s2 : stepTask [A, B, C] 2 = ([A, B, C], false) := by
        simp [stepTask, hC, hidB, lkB, c2]
      have p1 : onePass [A, B, C] = ([A, B, C], false) := by
        simp [onePass, passAux, s0, s1, s2]
      rw [hBfix, hCfix]
      constructor
      · simp [resolve_dependencies, resolveLoop, p1]
      · rw [p1]
    · have hcond : B.end_date = updateEnd A.end_date B.duration := by
        rw [hinvB, c1]
      have s2 : stepTask [A, B, C] 2 =
          ([A, B, shifted C B.end_date], true) := by
        simp [stepTask, shifted, hC, hidB, lkB, c2, List.set]
      have p1 : onePass [A, B, C] = ([A, B, shifted C B.end_date], true) := by
        simp [onePass, passAux, s0, s1, s2]
      have lkB2 : lookupLast [A, B, shifted C B.end_date] B.task_id =
          some B := by
        simp [lookupLast, List.find?, shifted_task_id, hCBf]
      have lkA2 : lookupLast [A, B, shifted C B.end_date] A.task_id =
          some A := by
        simp [lookupLast, List.find?, shifted_task_id, hBAf, hCAf]
      have s0b : stepTask [A, B, shifted C B.end_date] 0 =
          ([A, B, shifted C B.end_date], false) := by
        simp [stepTask, hA]
      have s1b : stepTask [A, B, shifted C B.end_date] 1 =
          ([A, B, shifted C B.end_date], false) := by
        simp [stepTask, hB, hidA, lkA2, c1]
      have s2b : stepTask [A, B, shifted C B.end_date] 2 =
          ([A, B, shifted C B.end_date], false) := by
        simp [stepTask, hC, hidB, lkB2, shifted_dependency, shifted_start_date]
      have p2 : onePass [A, B, shifted C B.end_date] =
          ([A, B, shifted C B.end_date], false) := by
        simp [onePass, passAux, s0b, s1b, s2b]
      rw [hBfix, ← hcond]
      constructor
      · simp [resolve_dependencies, resolveLoop, p1, p2]
      · rw [p1]
  · have s1 : stepTask [A, B, C] 1 = ([A, shifted B A.end_date, C], true) := by
      simp [stepTask, shifted, hB, hidA, lkA, c1, List.set]
    have lkB2 : lookupLast [A, shifted B A.end_date, C] B.task_id =
        some (shifted B A.end_date) := by
      simp [lookupLast, List.find?, shifted_task_id, hCBf]
    have lkA2 : lookupLast [A, shifted B A.end_date, C] A.task_id =
        some A := by
      simp [lookupLast, List.find?, shifted_task_id, hBAf, hCAf]
    have s0b : stepTask [A, shifted B A.end_date, C] 0 =
        ([A, shifted B A.end_date, C], false) := by
      simp [stepTask, hA]
    have s1b : stepTask [A, shifted B A.end_date, C] 1 =
        ([A, shifted B A.end_date, C], false) := by
      simp [stepTask, hB, hidA, lkA2, shifted_dependency, shifted_start_date]
    by_cases c2 : updateEnd A.end_date B.duration = C.start_date
    · have hCfix : shifted C (updateEnd A.end_date B.duration) = C :=
        task_eq_of rfl rfl rfl (by rw [shifted_start_date, c2])
          (by rw [shifted_end_date, c2, hinvC]) rfl rfl
      have s2 : stepTask [A, shifted B A.end_date, C] 2 =
          ([A, shifted B A.end_date, C], false) := by
        simp [stepTask, hC, hidB, lkB2, shifted_end_date, shifted_duration, c2]
      have p1 : onePass [A, B, C] = ([A, shifted B A.end_date, C], true) := by
        simp [onePass, passAux, s0, s1, s0b, s1b, s2]
      have p2 : onePass [A, shifted B A.end_date, C] =
          ([A, shifted B A.end_date, C], false) := by
        simp [onePass, passAux, s0b, s1b, s2]
      rw [hCfix]
      constructor
      · simp [resolve_dependencies, resolveLoop, p1, p2]
      · rw [p1]
    · have s2 : stepTask [A, shifted B A.end_date, C] 2 =
          ([A, shifted B A.end_date,
            shifted C (updateEnd A.end_date B.duration)], true) := by
        have lk := lkB2
        unfold shifted at lk ⊢
        simp [stepTask, hC, hidB, lk, c2, List.set]
      have p1 : onePass [A, B, C] =
          ([A, shifted B A.end_date,
            shifted C (updateEnd A.end_date B.duration)], true) := by
        simp [onePass, passAux, s0, s1, s2]
      have lkB3 : lookupLast [A, shifted B A.end_date,
          shifted C (updateEnd A.end_date B.duration)] B.task_id =
          some (shifted B A.end_date) := by
        simp [lookupLast, List.find?, shifted_task_id, hCBf]
      have lkA3 : lookupLast [A, shifted B A.end_date,
          shifted C (updateEnd A.end_date B.duration)] A.task_id =
          some A := by
        simp [lookupLast, List.find?, shifted_task_id, hBAf, hCAf]
      have s0c : stepTask [A, shifted B A.end_date,
          shifted C (updateEnd A.end_date B.duration)] 0 =
          ([A, shifted B A.end_date,
            shifted C (updateEnd A.end_date B.duration)], false) := by
        simp [stepTask, hA]
      have s1c : stepTask [A, shifted B A.end_date,
          shifted C (updateEnd A.end_date B.duration)] 1 =
          ([A, shifted B A.end_date,
            shifted C (updateEnd A.end_date B.duration)], false) := by
        simp [stepTask, hB, hidA, lkA3, shifted_dependency, shifted_start_date]
      have s2c : stepTask [A, shifted B A.end_date,
          shifted C (updateEnd A.end_date B.duration)] 2 =
          ([A, shifted B A.end_date,
            shifted C (updateEnd A.end_date B.duration)], false) := by
        simp [stepTask, hC, hidB, lkB3, shifted_dependency,
          shifted_start_date, shifted_end_date, shifted_duration]
      have p2 : onePass [A, shifted B A.end_date,
          shifted C (updateEnd A.end_date B.duration)] =
          ([A, shifted B A.end_date,
            shifted C (updateEnd A.end_date B.duration)], false) := by
        simp [onePass, passAux, s0c, s1c, s2c]
      constructor
      · simp [resolve_dependencies, resolveLoop, p1, p2]
      · rw [p1]

theorem resolve_chain_rev (A B C : Task)
    (hA : pyStrip A.dependency = "")
    (hB : pyStrip B.dependency = A.task_id)
    (hC : pyStrip C.dependency = B.task_id)
    (hidA : A.task_id ≠ "") (hidB : B.task_id ≠ "")
    (hBA : B.task_id ≠ A.task_id) (hCA : C.task_id ≠ A.task_id)
    (hCB : C.task_id ≠ B.task_id)
    (hinvB : endInv B) (hinvC : endInv C) :
    resolve_dependencies [C, B, A] =
      [shifted C (updateEnd A.end_date B.duration), shifted B A.end_date, A] := by
  rw [endInv] at hinvB hinvC
  have hAB : A.task_id ≠ B.task_id := Ne.symm hBA
  have hABf : (A.task_id == B.task_id) = false := by simp [hAB]
  have hBAf : (B.task_id == A.task_id) = false := by simp [hBA]
  have hCAf : (C.task_id == A.task_id) = false := by simp [hCA]
  have hCBf : (C.task_id == B.task_id) = false := by simp [hCB]
  have lkA0 : lookupLast [C, B, A] A.task_id = some A := by
    simp [lookupLast, List.find?]
  have lkB0 : lookupLast [C, B, A] B.task_id = some B := by
    simp [lookupLast, List.find?, hABf]
  have s2A : stepTask [C, B, A] 2 = ([C, B, A], false) := by
    simp [stepTask, hA]
  have hBfix : shifted B A.end_date = B → A.end_date = B.start_date := by
    intro h
    exact (congrArg Task.start_date h).trans rfl
  by_cases c1 : A.end_date = B.start_date
  · have hBeq : shifted B A.end_date = B :=
      task_eq_of rfl rfl rfl c1 (by rw [shifted_end_date, hinvB, c1]) rfl rfl
    have s1 : stepTask [C, B, A] 1 = ([C, B, A], false) := by
      simp [stepTask, hB, hidA, lkA0, c1]
    by_cases g1 : B.end_date = C.start_date
    · have hCeq : shifted C (updateEnd A.end_date B.duration) = C :=
        task_eq_of rfl rfl rfl (by rw [shifted_start_date, c1, ← hinvB, g1])
          (by rw [shifted_end_date, c1, ← hinvB, g1, hinvC]) rfl rfl
      have s0 : stepTask [C, B, A] 0 = ([C, B, A], false) := by
        simp [stepTask, hC, hidB, lkB0, g1]
      have p1 : onePass [C, B, A] = ([C, B, A], false) := by
        simp [onePass, passAux, s0, s1, s2A]
      rw [hBeq, hCeq]
      simp [resolve_dependencies, resolveLoop, p1]
    · have hBend : B.end_date = updateEnd A.end_date B.duration := by
        rw [hinvB, c1]
      have s0 : stepTask [C, B, A] 0 =
          ([shifted C B.end_date, B, A], true) := by
        simp [stepTask, shifted, hC, hidB, lkB0, g1, List.set]
      have lkA1 : lookupLast [shifted C B.end_date, B, A] A.task_id =
          some A := by
        simp [lookupLast, List.find?]
      have lkB1 : lookupLast [shifted C B.end_date, B, A] B.task_id =
          some B := by
        simp [lookupLast, List.find?, hABf]
      have s0b : stepTask [shifted C B.end_date, B, A] 0 =
          ([shifted C B.end_date, B, A], false) := by
        simp [stepTask, hC, hidB, lkB1, shifted_dependency, shifted_start_date]
      have s1b : stepTask [shifted C B.end_date, B, A] 1 =
          ([shifted C B.end_date, B, A], false) := by
        simp [stepTask, hB, hidA, lkA1, c1]
      have s2b : stepTask [shifted C B.end_date, B, A] 2 =
          ([shifted C B.end_date, B, A], false) := by
        simp [stepTask, hA]
      have p1 : onePass [C, B, A] = ([shifted C B.end_date, B, A], true) := by
        simp [onePass, passAux, s0, s1b, s2b]
      have p2 : onePass [shifted C B.end_date, B, A] =
          ([shifted C B.end_date, B, A], false) := by
        simp [onePass, passAux, s0b, s1b, s2b]
      rw [hBeq, ← hBend]
      simp [resolve_dependencies, resolveLoop, p1, p2]
  · have hne2 : updateEnd A.end_date B.duration ≠
        updateEnd B.start_date B.duration :=
      fun h => c1 (updateEnd_inj h)
    have s1 : stepTask [C, B, A] 1 =
        ([C, shifted B A.end_date, A], true) := by
      simp [stepTask, shifted, hB, hidA, lkA0, c1, List.set]
    by_cases g1 : B.end_date = C.start_date
    · have hcond : updateEnd A.end_date B.duration ≠ C.start_date := by
        rw [← g1, hinvB]
        exact hne2
      have s0 : stepTask [C, B, A] 0 = ([C, B, A], false) := by
        simp [stepTask, hC, hidB, lkB0, g1]
      have lkA1 : lookupLast [C, shifted B A.end_date, A] A.task_id =
          some A := by
        simp [lookupLast, List.find?]
      have lkB1 : lookupLast [C, shifted B A.end_date, A] B.task_id =
          some (shifted B A.end_date) := by
        simp [lookupLast, List.find?, shifted_task_id, hABf]
      have s1b : stepTask [C, shifted B A.end_date, A] 1 =
          ([C, shifted B A.end_date, A], false) := by
        simp [stepTask, hB, hidA, lkA1, shifted_dependency, shifted_start_date]
      have s2b : stepTask [C, shifted B A.end_date, A] 2 =
          ([C, shifted B A.end_date, A], false) := by
        simp [stepTask, hA]
      have p1 : onePass [C, B, A] = ([C, shifted B A.end_date, A], true) := by
        simp [onePass, passAux, s0, s1, s2b]
      have s0b : stepTask [C, shifted B A.end_date, A] 0 =
          ([shifted C (updateEnd A.end_date B.duration),
            shifted B A.end_date, A], true) := by
        have lk := lkB1
        unfold shifted at lk ⊢
        simp [stepTask, hC, hidB, lk, hcond, List.set]
      have p2 : onePass [C, shifted B A.end_date, A] =
          ([shifted C (updateEnd A.end_date B.duration),
            shifted B A.end_date, A], true) := by
        simp only [onePass]
        have hlen : ([C, shifted B A.end_date, A] : List Task).length = 3 := rfl
        rw [hlen]
        simp only [passAux, s0b]
        have s1c : stepTask [shifted C (updateEnd A.end_date B.duration),
            shifted B A.end_date, A] 1 =
            ([shifted C (updateEnd A.end_date B.duration),
              shifted B A.end_date, A], false) := by
          have lkA2 : lookupLast [shifted C (updateEnd A.end_date B.duration),
              shifted B A.end_date, A] A.task_id = some A := by
            simp [lookupLast, List.find?]
          simp [stepTask, hB, hidA, lkA2, shifted_dependency,
            shifted_start_date]
        have s2c : stepTask [shifted C (updateEnd A.end_date B.duration),
            shifted B A.end_date, A] 2 =
            ([shifted C (updateEnd A.end_date B.duration),
              shifted B A.end_date, A], false) := by
          simp [stepTask, hA]
        simp [passAux, s1c, s2c]
      have p3 : onePass [shifted C (updateEnd A.end_date B.duration),
          shifted B A.end_date, A] =
          ([shifted C (updateEnd A.end_date B.duration),
            shifted B A.end_date, A], false) := by
        have lkA2 : lookupLast [shifted C (updateEnd A.end_date B.duration),
            shifted B A.end_date, A] A.task_id = some A := by
          simp [lookupLast, List.find?]
        have lkB2 : lookupLast [shifted C (updateEnd A.end_date B.duration),
            shifted B A.end_date, A] B.task_id =
            some (shifted B A.end_date) := by
          simp [lookupLast, List.find?, shifted_task_id, hABf]
        have s0c : stepTask [shifted C (updateEnd A.end_date B.duration),
            shifted B A.end_date, A] 0 =
            ([shifted C (updateEnd A.end_date B.duration),
              shifted B A.end_date, A], false) := by
          simp [stepTask, hC, hidB, lkB2, shifted_dependency,
            shifted_start_date, shifted_end_date]
        have s1c : stepTask [shifted C (updateEnd A.end_date B.duration),
            shifted B A.end_date, A] 1 =
            ([shifted C (updateEnd A.end_date B.duration),
              shifted B A.end_date, A], false) := by
          simp [stepTask, hB, hidA, lkA2, shifted_dependency,
            shifted_start_date]
        have s2c : stepTask [shifted C (updateEnd A.end_date B.duration),
            shifted B A.end_date, A] 2 =
            ([shifted C (updateEnd A.end_date B.duration),
              shifted B A.end_date, A], false) := by
          simp [stepTask, hA]
        simp [onePass, passAux, s0c, s1c, s2c]
      simp [resolve_dependencies, resolveLoop, p1, p2, p3]
    · have s0 : stepTask [C, B, A] 0 =
          ([shifted C B.end_date, B, A], true) := by
        simp [stepTask, shifted, hC, hidB, lkB0, g1, List.set]
      have p1 : onePass [C, B, A] =
          ([shifted C B.end_date, shifted B A.end_date, A], true) := by
        simp only [onePass]
        have hlen : ([C, B, A] : List Task).length = 3 := rfl
        rw [hlen]
        simp only [passAux, s0]
        have lkA1 : lookupLast [shifted C B.end_date, B, A] A.task_id =
            some A := by
          simp [lookupLast, List.find?]
        have s1c : stepTask [shifted C B.end_date, B, A] 1 =
            ([shifted C B.end_date, shifted B A.end_date, A], true) := by
          have lk := lkA1
          unfold shifted at lk ⊢
          simp [stepTask, hB, hidA, lk, c1, List.set]
        have s2c : stepTask [shifted C B.end_date, shifted B A.end_date, A]
            2 = ([shifted C B.end_date, shifted B A.end_date, A], false) := by
          simp [stepTask, hA]
        simp [passAux, s1c, s2c]
      have lkB2 : lookupLast [shifted C B.end_date, shifted B A.end_date, A]
          B.task_id = some (shifted B A.end_date) := by
        simp [lookupLast, List.find?, shifted_task_id, hABf]
      have lkA2 : lookupLast [shifted C B.end_date, shifted B A.end_date, A]
          A.task_id = some A := by
        simp [lookupLast, List.find?]
      have hcond2 : updateEnd A.end_date B.duration ≠ B.end_date := by
        rw [hinvB]
        exact hne2
      have p2 : onePass [shifted C B.end_date, shifted B A.end_date, A] =
          ([shifted C (updateEnd A.end_date B.duration),
            shifted B A.end_date, A], true) := by
        simp only [onePass]
        have hlen : ([shifted C B.end_date, shifted B A.end_date, A] :
            List Task).length = 3 := rfl
        rw [hlen]
        have s0c : stepTask [shifted C B.end_date, shifted B A.end_date, A]
            0 = ([shifted C (updateEnd A.end_date B.duration),
              shifted B A.end_date, A], true) := by
          have lk := lkB2
          unfold shifted at lk ⊢
          simp [stepTask, hC, hidB, lk, hcond2, List.set]
        have s1c : stepTask [shifted C (updateEnd A.end_date B.duration),
            shifted B A.end_date, A] 1 =
            ([shifted C (updateEnd A.end_date B.duration),
              shifted B A.end_date, A], false) := by
          have lkA3 : lookupLast [shifted C (updateEnd A.end_date B.duration),
              shifted B A.end_date, A] A.task_id = some A := by
            simp [lookupLast, List.find?]
          simp [stepTask, hB, hidA, lkA3, shifted_dependency,
            shifted_start_date]
        have s2c : stepTask [shifted C (updateEnd A.end_date B.duration),
            shifted B A.end_date, A] 2 =
            ([shifted C (updateEnd A.end_date B.duration),
              shifted B A.end_date, A], false) := by
          simp [stepTask, hA]
        simp [passAux, s0c, s1c, s2c]
      have p3 : onePass [shifted C (updateEnd A.end_date B.duration),
          shifted B A.end_date, A] =
          ([shifted C (updateEnd A.end_date B.duration),
            shifted B A.end_date, A], false) := by
        have lkA3 : lookupLast [shifted C (updateEnd A.end_date B.duration),
            shifted B A.end_date, A] A.task_id = some A := by
          simp [lookupLast, List.find?]
        have lkB3 : lookupLast [shifted C (updateEnd A.end_date B.duration),
            shifted B A.end_date, A] B.task_id =
            some (shifted B A.end_date) := by
          simp [lookupLast, List.find?, shifted_task_id, hABf]
        have s0c : stepTask [shifted C (updateEnd A.end_date B.duration),
            shifted B A.end_date, A] 0 =
            ([shifted C (updateEnd A.end_date B.duration),
              shifted B A.end_date, A], false) := by
          simp [stepTask, hC, hidB, lkB3, shifted_dependency,
            shifted_start_date, shifted_end_date]
        have s1c : stepTask [shifted C (updateEnd A.end_date B.duration),
            shifted B A.end_date, A] 1 =
            ([shifted C (updateEnd A.end_date B.duration),
              shifted B A.end_date, A], false) := by
          simp [stepTask, hB, hidA, lkA3, shifted_dependency,
            shifted_start_date]
        have s2c : stepTask [shifted C (updateEnd A.end_date B.duration),
            shifted B A.end_date, A] 2 =
            ([shifted C (updateEnd A.end_date B.duration),
              shifted B A.end_date, A], false) := by
          simp [stepTask, hA]
        simp [onePass, passAux, s0c, s1c, s2c]
      simp [resolve_dependencies, resolveLoop, p1, p2, p3]

/-! ### Helper lemmas for the tabular error cases -/

theorem rowToTask_dur_error {r : Row} {s : String}
    (h1 : r.duration = Cell.cStr s) (h2 : pyIntOfString s = none) :
    rowToTask r = .error PyError.valueError := by
  simp [rowToTask, pyInt, h1, h2]

theorem rowToTask_start_error {r : Row} {s : String} {d : Int}
    (h1 : r.start = Cell.cStr s) (h2 : pyInt r.duration = .ok d)
    (h3 : d ≠ 0) : rowToTask r = .error PyError.typeError := by
  simp [rowToTask, h2, h1, h3, asStartCell, cellPlusDays]

/-! ## The claims -/

/-- Claim C1, counterexample: A has start Day 0, duration 5, end Day 5,
no dependency; B has duration 3 and depends on A, with prior start Day 5
and prior end 99.  Resolution returns both tasks unchanged, so B's end
date stays 99 instead of the claimed 8: the code only rewrites the dates
when the parent's end differs from the task's current start. -/
theorem claim_C1_counterexample :
    resolve_dependencies [cxA, cxB] = [cxA, cxB] ∧
      ¬ ((resolve_dependencies [cxA, cxB]).map Task.end_date = [5, 8]) := by
  decide

/-- Claim C1 (amended): for tasks A (no dependency) and B (dependency
resolving to A, distinct ids), resolution sets B's start to A's end and
re-derives B's end from its own duration, for every prior value of B's
dates with `B.start_date ≠ A.end_date`; when B's start already equals
A's end, B is returned exactly as stored (its end is not re-derived). -/
theorem claim_C1 (A B : Task)
    (hA : pyStrip A.dependency = "")
    (hB : pyStrip B.dependency = A.task_id)
    (hid : A.task_id ≠ "")
    (hne : B.task_id ≠ A.task_id) :
    resolve_dependencies [A, B] =
      if A.end_date = B.start_date then [A, B]
      else [A, shifted B A.end_date] :=
  resolve_pair A B hA hB hid hne

/-- Claim C1, witness: the claim's own numbers with prior start 99. -/
theorem claim_C1_witness :
    resolve_dependencies [wA, wB] = [wA, shifted wB wA.end_date] := by
  have h := claim_C1 wA wB (by decide) (by decide) (by decide) (by decide)
  simpa [wA, wB] using h

/-- Claim C2, counterexample: a task with no dependency whose stored end
date (99) differs from start + duration (5) is returned unchanged by
`resolve_dependencies`, so the output violates the invariant: the claim
fails without a precondition on the stored end dates. -/
theorem claim_C2_counterexample :
    resolve_dependencies [badInv] = [badInv] ∧ ¬ endInv badInv := by
  decide

/-- Claim C2 (amended): the derivation invariant (`end = start` for
duration 0, else `end = start + duration`) holds for every task produced
by `create_project` and by `df_to_tasks`, and is preserved by
`resolve_dependencies`: if every input task satisfies it, every output
task does.  A task with an unresolvable dependency is returned as
stored, so the resolver cannot establish the invariant on inputs that
violate it. -/
theorem claim_C2 :
    (∀ ts : List Task, (∀ u ∈ ts, endInv u) →
      ∀ u ∈ resolve_dependencies ts, endInv u) ∧
    (∀ (today : Int) (n : Nat), ∀ u ∈ create_project today n, endInv u) ∧
    (∀ (rows : List Row) (ts : List DfTask),
      df_to_tasks rows = .ok ts → ∀ t ∈ ts, dfEndInv t) := by
  refine ⟨?_, ?_, ?_⟩
  · intro ts h
    exact resolveLoop_inv ts.length h
  · intro today n
    exact create_project_inv today n
  · intro rows ts h
    exact df_to_tasks_inv h

/-- Claim C2, witness: the invariant checked on concrete outputs of each
of the three operations. -/
theorem claim_C2_witness :
    endInv ((resolve_dependencies [wA, wB]).getD 1 wA) ∧
      endInv ((create_project 0 2).getD 0 wA) ∧
      dfEndInv ((match df_to_tasks [badStartRow] with
        | .ok ts => ts
        | .error _ => []).getD 0
          ⟨"", "", 0, Cell.cInt 0, Cell.cInt 0, "", ""⟩) := by
  refine ⟨?_, ?_, ?_⟩
  · exact claim_C2.1 [wA, wB] (by decide) _ (by decide)
  · exact claim_C2.2.1 0 2 _ (by decide)
  · exact claim_C2.2.2 [badStartRow] [⟨"T-001", "x", 0, Cell.cStr "soon",
      Cell.cStr "soon", "Dark Blue", ""⟩] (by rfl) _ (by decide)

/-- Claim C3, counterexample: a self-dependent task shifts by its
duration on every call, so a second resolution changes the dates again:
idempotence fails for dependency cycles. -/
theorem claim_C3_counterexample :
    resolve_dependencies (resolve_dependencies [selfLoop]) ≠
      resolve_dependencies [selfLoop] := by
  decide

/-- Claim C3 (amended): a second call to `resolve_dependencies` changes
nothing whenever the first call's output is stable (one further pass
over it reports no change, which is how the loop exits on acyclic
inputs within the pass bound); for inputs with dependency cycles the
bounded loop can stop at a non-fixed point, and a second call then moves
the dates further. -/
theorem claim_C3 (ts : List Task)
    (h : Stable (resolve_dependencies ts)) :
    resolve_dependencies (resolve_dependencies ts) =
      resolve_dependencies ts :=
  resolveLoop_of_stable h _

/-- Claim C3, witness: a resolved two-task chain is a stable point. -/
theorem claim_C3_witness :
    resolve_dependencies (resolve_dependencies [wA, wB]) =
      resolve_dependencies [wA, wB] :=
  claim_C3 [wA, wB] (by decide)

/-- Claim C4: for a finish-to-start chain A→B→C (distinct nonempty
whitespace-free ids, B and C satisfying the end-date invariant, A
independent), resolution of `[A, B, C]` and of `[C, B, A]` reaches the
same final dates for all three tasks — B starts at A's end, C starts at
B's new end, each end re-derived — within the pass bound `N = 3`, and
the front-to-back order already has the final dates after a single
pass. -/
theorem claim_C4 (A B C : Task)
    (hA : pyStrip A.dependency = "")
    (hB : pyStrip B.dependency = A.task_id)
    (hC : pyStrip C.dependency = B.task_id)
    (hidA : A.task_id ≠ "") (hidB : B.task_id ≠ "")
    (hBA : B.task_id ≠ A.task_id) (hCA : C.task_id ≠ A.task_id)
    (hCB : C.task_id ≠ B.task_id)
    (hinvB : endInv B) (hinvC : endInv C) :
    resolve_dependencies [A, B, C] =
        [A, shifted B A.end_date,
          shifted C (updateEnd A.end_date B.duration)] ∧
      resolve_dependencies [C, B, A] =
        [shifted C (updateEnd A.end_date B.duration),
          shifted B A.end_date, A] ∧
      (onePass [A, B, C]).1 = resolve_dependencies [A, B, C] := by
  obtain ⟨h1, h2⟩ := resolve_chain_fwd A B C hA hB hC hidA hidB hBA hCA hCB
    hinvB hinvC
  refine ⟨h1, ?_, ?_⟩
  · exact resolve_chain_rev A B C hA hB hC hidA hidB hBA hCA hCB hinvB hinvC
  · rw [h1, h2]

/-- Claim C4, witness: a concrete chain with stale downstream dates. -/
theorem claim_C4_witness :
    resolve_dependencies [c4A, c4B, c4C] =
        [c4A, shifted c4B c4A.end_date,
          shifted c4C (updateEnd c4A.end_date c4B.duration)] ∧
      resolve_dependencies [c4C, c4B, c4A] =
        [shifted c4C (updateEnd c4A.end_date c4B.duration),
          shifted c4B c4A.end_date, c4A] ∧
      (onePass [c4A, c4B, c4C]).1 = resolve_dependencies [c4A, c4B, c4C] :=
  claim_C4 c4A c4B c4C (by decide) (by decide) (by decide) (by decide)
    (by decide) (by decide) (by decide) (by decide) (by decide) (by decide)

/-- Claim C5: a task whose dependency field is non-empty but resolves to
no task id of the collection (the code looks the stripped field up among
the ids) is returned by `resolve_dependencies` exactly as given — no
error, no date change. -/
theorem claim_C5 (ts : List Task) (j : Nat) (t : Task)
    (ht : ts[j]? = some t) (_hne : t.dependency ≠ "")
    (hmiss : pyStrip t.dependency ∉ idsOf ts) :
    (resolve_dependencies ts)[j]? = some t :=
  resolveLoop_untouched ts.length ts ht (Or.inr hmiss)

/-- Claim C5, witness: a dependency naming a ghost id is a no-op. -/
theorem claim_C5_witness :
    (resolve_dependencies [wA, u5])[1]? = some u5 :=
  claim_C5 [wA, u5] 1 u5 (by decide) (by decide) (by decide)

/-- Claim C6: `create_project n` yields exactly `n` tasks with the
sequential ids `T-001`, `T-002`, … (unique for every `n`), each with the
configured default duration of 10 days, an empty dependency, and an end
date exactly `duration` days after the start date; `create_project 0`
and `resolve_dependencies []` both return `[]`. -/
theorem claim_C6 (today : Int) (n : Nat) :
    (create_project today n).length = n ∧
      (create_project today n).map Task.task_id =
        (List.range n).map (fun i => "T-" ++ formatIndex3 (i + 1)) ∧
      ((create_project today n).map Task.task_id).Nodup ∧
      (∀ t ∈ create_project today n,
        t.duration = DEFAULT_DURATION_DAYS ∧ t.dependency = "" ∧
          t.end_date - t.start_date = t.duration) ∧
      DEFAULT_DURATION_DAYS = 10 ∧
      create_project today 0 = [] ∧
      resolve_dependencies [] = [] ∧
      (create_project today 3).map Task.task_id =
        ["T-001", "T-002", "T-003"] := by
  refine ⟨?_, ?_, ?_, ?_, rfl, rfl, rfl, ?_⟩
  · simp [create_project]
  · simp [create_project, make_default_task]
  · have hmap : (create_project today n).map Task.task_id =
        (List.range n).map (fun i => "T-" ++ formatIndex3 (i + 1)) := by
      simp [create_project, make_default_task]
    rw [hmap]
    refine List.Nodup.map ?_ (List.nodup_range n)
    intro i j h
    have := taskId_injective h
    omega
  · intro t ht
    simp only [create_project, List.mem_map] at ht
    obtain ⟨i, _, rfl⟩ := ht
    refine ⟨rfl, rfl, ?_⟩
    simp [make_default_task]
  · rfl

/-- Claim C6, witness: the shape of a five-task default project. -/
theorem claim_C6_witness :
    (create_project 0 5).length = 5 ∧
      ((create_project 0 5).map Task.task_id).Nodup ∧
      create_project 0 0 = [] := by
  refine ⟨(claim_C6 0 5).1, (claim_C6 0 5).2.2.1, (claim_C6 0 0).2.2.2.2.2.1⟩

/-- Claim C7, counterexample: a row whose start date is the unparseable
string `"soon"` but whose duration is 0 is converted without any error —
the code never validates the start date, it only trips over date
arithmetic, which duration 0 skips.  No `ValidationError` type exists in
the code at all. -/
theorem claim_C7_counterexample :
    df_to_tasks [badStartRow] =
      Except.ok [⟨"T-001", "x", 0, Cell.cStr "soon", Cell.cStr "soon",
        "Dark Blue", ""⟩] := by
  rfl

/-- Claim C7 (amended): the conversion raises only the built-in errors
of the dynamic code, which carry no row or field information: a
non-numeric duration string raises `ValueError` (immediately when it is
the first row), an unparseable string start date raises `TypeError` only
when the parsed duration is non-zero (with duration 0 the bad value is
silently passed through), and any raised error rejects the whole batch —
no partial task list is produced.  The stored End Date column is never
read, and every produced task has its end date recomputed from start and
duration. -/
theorem claim_C7 :
    (∀ (post : List Row) (r : Row) (s : String),
      r.duration = Cell.cStr s → pyIntOfString s = none →
      df_to_tasks (r :: post) = .error PyError.valueError) ∧
    (∀ (pre post : List Row) (r : Row) (s : String),
      r.duration = Cell.cStr s → pyIntOfString s = none →
      ∃ e, df_to_tasks (pre ++ r :: post) = .error e) ∧
    (∀ (pre post : List Row) (r : Row) (s : String) (d : Int),
      r.start = Cell.cStr s → pyInt r.duration = .ok d → d ≠ 0 →
      ∃ e, df_to_tasks (pre ++ r :: post) = .error e) ∧
    (∀ (rows : List Row) (f : Row → Cell),
      df_to_tasks (rows.map (fun r => { r with end_cell := f r })) =
        df_to_tasks rows) ∧
    (∀ (rows : List Row) (ts : List DfTask),
      df_to_tasks rows = .ok ts → ∀ t ∈ ts, dfEndInv t) := by
  refine ⟨?_, ?_, ?_, ?_, ?_⟩
  · intro post r s h1 h2
    simp [df_to_tasks, rowToTask_dur_error h1 h2]
  · intro pre post r s h1 h2
    exact df_to_tasks_row_error (rowToTask_dur_error h1 h2) pre post
  · intro pre post r s d h1 h2 h3
    exact df_to_tasks_row_error (rowToTask_start_error h1 h2 h3) pre post
  · intro rows f
    exact df_to_tasks_ignores_end_cell rows f
  · intro rows ts h
    exact df_to_tasks_inv h

/-- Claim C7, witness: a non-numeric duration rejects the batch with a
bare `ValueError`. -/
theorem claim_C7_witness :
    df_to_tasks [badDurRow, badStartRow] = .error PyError.valueError :=
  claim_C7.1 [badStartRow] badDurRow "ten" rfl (by decide)

/-- Claim C8: `resolve_dependencies` returns a list of the same length
with tasks at the same positions; at every position the fields
`task_id`, `name`, `duration`, `colour` and `dependency` are unchanged
(only the dates can move), and a task whose stripped dependency is empty
or names no id of the collection is returned entirely unchanged. -/
theorem claim_C8 (ts : List Task) :
    (resolve_dependencies ts).length = ts.length ∧
      (∀ j : Nat, ((resolve_dependencies ts)[j]?).map static =
        (ts[j]?).map static) ∧
      (∀ (j : Nat) (t : Task), ts[j]? = some t → Unres t (idsOf ts) →
        (resolve_dependencies ts)[j]? = some t) := by
  refine ⟨resolveLoop_length ts.length ts, ?_, ?_⟩
  · intro j
    exact resolveLoop_static ts.length ts j
  · intro j t ht hu
    exact resolveLoop_untouched ts.length ts ht hu

/-- Claim C8, witness: frame facts on a concrete mixed list. -/
theorem claim_C8_witness :
    (resolve_dependencies [wA, wB, u5]).length = 3 ∧
      (resolve_dependencies [wA, wB, u5])[2]? = some u5 := by
  refine ⟨(claim_C8 [wA, wB, u5]).1, ?_⟩
  exact (claim_C8 [wA, wB, u5]).2.2 2 u5 (by decide) (by decide)

/-- Claim C9: resolution reads the dependency field only through
stripping: two lists equal in everything except the raw dependency text,
with equal stripped forms, resolve to lists that again agree on
everything except that raw text — so a dependency id surrounded by
whitespace links exactly like the bare id; and a task whose dependency
strips to the empty string is returned unchanged. -/
theorem claim_C9 :
    (∀ ts us : List Task, List.Forall₂ TrimEq ts us →
      List.Forall₂ TrimEq (resolve_dependencies ts)
        (resolve_dependencies us)) ∧
    (∀ (ts : List Task) (j : Nat) (t : Task), ts[j]? = some t →
      pyStrip t.dependency = "" → (resolve_dependencies ts)[j]? = some t) := by
  constructor
  · intro ts us h
    unfold resolve_dependencies
    rw [List.Forall₂.length_eq h]
    exact resolveLoop_trimEq us.length h
  · intro ts j t ht hstrip
    exact resolveLoop_untouched ts.length ts ht (Or.inl hstrip)

/-- Claim C9, witness: `" T-001 "` links like `"T-001"`, and an
all-whitespace dependency is a no-op. -/
theorem claim_C9_witness :
    List.Forall₂ TrimEq (resolve_dependencies [base9, p9])
        (resolve_dependencies [base9, q9]) ∧
      (resolve_dependencies [ws9])[0]? = some ws9 := by
  constructor
  · exact claim_C9.1 [base9, p9] [base9, q9]
      (List.Forall₂.cons ⟨rfl, rfl, rfl, rfl, rfl, rfl, rfl⟩
        (List.Forall₂.cons ⟨rfl, rfl, rfl, rfl, rfl, rfl, by decide⟩
          List.Forall₂.nil))
  · exact claim_C9.2 [ws9] 0 ws9 rfl (by decide)

/-- Claim C10: a singleton task that depends on itself (well-formed id,
positive duration `d`, end = start + d) comes back with start and end
both advanced by exactly `d` days — the single bounded pass applies the
self-link once and exits — and the result is neither the input nor a
fixed point: resolving again moves the dates further. -/
theorem claim_C10 (A : Task)
    (hdep : A.dependency = A.task_id)
    (hstrip : pyStrip A.task_id = A.task_id)
    (hid : A.task_id ≠ "")
    (hd : 0 < A.duration)
    (hinv : A.end_date = A.start_date + A.duration) :
    resolve_dependencies [A] =
        [{ A with start_date := A.start_date + A.duration,
                  end_date := A.start_date + 2 * A.duration }] ∧
      resolve_dependencies [A] ≠ [A] ∧
      resolve_dependencies (resolve_dependencies [A]) ≠
        resolve_dependencies [A] := by
  have hne : A.end_date ≠ A.start_date := by omega
  have hstep := selfdep_shift A (by rw [hdep, hstrip]) hid hne
  have hfix : shifted A A.end_date =
      { A with start_date := A.start_date + A.duration,
               end_date := A.start_date + 2 * A.duration } := by
    refine task_eq_of rfl rfl rfl ?_ ?_ rfl rfl
    · rw [shifted_start_date, hinv]
    · rw [shifted_end_date, hinv]
      unfold updateEnd
      rw [if_neg (by omega)]
      ring
  have h1 : resolve_dependencies [A] =
      [{ A with start_date := A.start_date + A.duration,
                end_date := A.start_date + 2 * A.duration }] := by
    rw [hstep, hfix]
  refine ⟨h1, ?_, ?_⟩
  · rw [h1]
    intro h
    have := congrArg (fun l => (l.getD 0 A).start_date) h
    simp at this
    omega
  · rw [h1]
    intro h
    have hstep2 := selfdep_shift
      { A with start_date := A.start_date + A.duration,
               end_date := A.start_date + 2 * A.duration }
      (show pyStrip A.dependency = A.task_id by rw [hdep, hstrip])
      (show A.task_id ≠ "" from hid)
      (show A.start_date + 2 * A.duration ≠ A.start_date + A.duration by omega)
    rw [hstep2] at h
    have := congrArg (fun l => (l.getD 0 A).start_date) h
    simp [shifted_start_date] at this
    omega

/-- Claim C10, witness: duration 2, start Day 0, end Day 2. -/
theorem claim_C10_witness :
    resolve_dependencies [sd10] =
        [{ sd10 with start_date := sd10.start_date + sd10.duration,
                     end_date := sd10.start_date + 2 * sd10.duration }] ∧
      resolve_dependencies [sd10] ≠ [sd10] ∧
      resolve_dependencies (resolve_dependencies [sd10]) ≠
        resolve_dependencies [sd10] :=
  claim_C10 sd10 rfl (by decide) (by decide) (by decide) (by decide)

end Gantt
